import Mathlib

/-!
AugmentFS — verification of the integrity engine and WORM layer.

Shallow embedding of the AugmentFS overlay filesystem (metadatafs with
checksums/WORM, and the block-indexed variant in blockfs.cpp).

Modelling conventions:
* machine `uint64_t` arithmetic is `Nat` with an explicit `% 2^64` where the
  C++ code can overflow (the FNV multiply);
* byte buffers are `List Nat` (each element an `unsigned char` value);
* the SQLite tables are association lists (`checksums` has primary key
  `path`, `metadata` has primary key `(path, key)`);
* host-filesystem calls (`open`, `pread`, `pwrite`, `truncate`, `rename`,
  `unlink`, `close`) are oracles: each operation takes the host outcome as an
  explicit argument, and the current backing-file content (used by the code's
  full-file hashing helpers) is passed as an `Option (List Nat)` (`none`
  models an unreadable/absent file);
* each FUSE operation returns the successor global state together with an
  `Except`-style result mirroring the C++ `0 / -errno` convention.
-/

set_option autoImplicit false

namespace AugmentFS

/-! ## Association-list helpers (model of `std::unordered_map` / SQL tables) -/

/-- First value bound to key `a`, if any. -/
def alookup {α β : Type} [DecidableEq α] : List (α × β) → α → Option β
  | [], _ => none
  | (k, v) :: rest, a => if k = a then some v else alookup rest a

/-- Insert-or-assign: the map update `m[k] = v`. -/
def aupsert {α β : Type} [DecidableEq α] (m : List (α × β)) (k : α) (v : β) :
    List (α × β) :=
  (k, v) :: m.filter (fun e => e.1 ≠ k)

/-- Remove the binding of key `k` (the map/table `erase` / `DELETE`). -/
def aerase {α β : Type} [DecidableEq α] (m : List (α × β)) (k : α) :
    List (α × β) :=
  m.filter (fun e => e.1 ≠ k)


/-! ## FNV-1a (as in `update_fnv1a` and its constants) -/

/-- `2^64`, the modulus of `uint64_t` arithmetic. -/
def U64 : Nat := 2 ^ 64

/-- `static const uint64_t FNV_OFFSET_BASIS = 1469598103934665603ULL;` -/
def FNV_OFFSET_BASIS : Nat := 1469598103934665603

/-- `static const uint64_t FNV_PRIME = 1099511628211ULL;` -/
def FNV_PRIME : Nat := 1099511628211

/-- One loop iteration of `update_fnv1a`: `hash ^= p[i]; hash *= FNV_PRIME;`
(the multiply is 64-bit, hence the `% U64`). -/
def fnvStep (h b : Nat) : Nat := ((h ^^^ b) * FNV_PRIME) % U64

/-- `update_fnv1a`: fold a buffer into the running hash. -/
def update_fnv1a (h : Nat) (buf : List Nat) : Nat := buf.foldl fnvStep h


/-- Serialization used by `store_checksum` and friends:
`std::ostringstream oss; oss << std::hex << hash;` — lowercase hex digits,
no leading zeros ("0" for zero). -/
def toHex (n : Nat) : String := ⟨Nat.toDigits 16 n⟩

/-- Bytes of an ASCII string, as the C++ code sees them. -/
def strBytes (s : String) : List Nat := s.toList.map Char.toNat

instance exceptDecEq {ε α : Type} [DecidableEq ε] [DecidableEq α] :
    DecidableEq (Except ε α) := fun x y =>
  match x, y with
  | .error a, .error b =>
    if h : a = b then .isTrue (by rw [h]) else .isFalse (by simp [h])
  | .error _, .ok _ => .isFalse (by simp)
  | .ok _, .error _ => .isFalse (by simp)
  | .ok a, .ok b =>
    if h : a = b then .isTrue (by rw [h]) else .isFalse (by simp [h])

/-! ## Errors and open flags -/

/-- Result codes the overlay returns: `-EPERM`, `-EIO`, or a propagated host
`errno` (`return -errno`). -/
inductive Err : Type where
  | permDenied : Err
  | ioError : Err
  | hostError : Nat → Err
deriving DecidableEq, Repr

/-- The part of `fi->flags` the engine inspects: `writer` is
`(flags & O_ACCMODE) == O_WRONLY || == O_RDWR`, `trunc` is `flags & O_TRUNC`. -/
structure Flags : Type where
  writer : Bool
  trunc : Bool
deriving DecidableEq, Repr

/-! ## Global state of metadatafs (unnamed/part_002) -/

/-- The process-wide mutable state of the whole-file-mode overlay:
`checksum_map` (fd → running hash), the two read-verification caches,
the configured append-only prefixes, the path → fd multimap, and the two
sidecar tables (`checksums` keyed by `path`, `metadata` keyed by
`(path, key)`). -/
structure FSState : Type where
  checksum_map : List (Nat × Nat)
  verified_ok_fds : List Nat
  verified_bad_fds : List Nat
  append_only_dirs : List String
  open_path_to_fd : List (String × Nat)
  checksums : List (String × String)
  metadata : List ((String × String) × String)
deriving DecidableEq, Repr

/-! ## Hashing helpers of part_002 -/

/-- `compute_checksum_for_file`: hex digest of the whole backing file, or `""`
when the file cannot be opened/read (`backing = none`). -/
def compute_checksum_for_file (backing : Option (List Nat)) : String :=
  match backing with
  | none => ""
  | some bs => toHex (update_fnv1a FNV_OFFSET_BASIS bs)

/-- `compute_hash_uint64`: raw 64-bit digest of the whole backing file;
an unopenable file yields the offset basis. -/
def compute_hash_uint64 (backing : Option (List Nat)) : Nat :=
  match backing with
  | none => FNV_OFFSET_BASIS
  | some bs => update_fnv1a FNV_OFFSET_BASIS bs

/-- `is_append_only_path`: true iff the path equals a configured dir or starts
with a configured dir immediately followed by a slash
(`p.compare(0, dir.size(), dir) == 0 && p[dir.size()] == '/'`). -/
def is_append_only_path (dirs : List String) (p : String) : Bool :=
  if dirs.isEmpty then false
  else dirs.any (fun dir =>
    p = dir ∨
      (dir.toList.length < p.toList.length ∧
        p.toList.take dir.toList.length = dir.toList ∧
        p.toList[dir.toList.length]? = some '/'))

/-- `add_append_only_dirs_from_csv`: split the option value on commas, skip
empty items, prepend a slash when absent.  (C++ `std::getline` produces no
trailing empty segment after a final comma; `String.splitOn` does, but the
empty-item filter absorbs the difference.) -/
def add_append_only_dirs_from_csv (csv : String) : List String :=
  ((csv.splitOn ",").filter (fun item => ¬ item.isEmpty)).map
    (fun item => if item.toList.head? = some '/' then item else "/" ++ item)

/-- `verify_fd_checksum`: per-fd cached comparison of the stored digest with a
fresh digest of the backing content.  Returns the successor state (caches
updated) and the verdict.  The `meta_db`/prepare fail-open branches are not
modelled: the sidecar is assumed open and statements well-formed. -/
def verify_fd_checksum (st : FSState) (path : String) (fd : Nat)
    (backing : Option (List Nat)) : FSState × Bool :=
  if fd ∈ st.verified_ok_fds then (st, true)
  else if fd ∈ st.verified_bad_fds then (st, false)
  else
    match alookup st.checksums path with
    | none => ({ st with verified_ok_fds := fd :: st.verified_ok_fds }, true)
    | some stored =>
      if stored = "" then
        ({ st with verified_ok_fds := fd :: st.verified_ok_fds }, true)
      else
        let current := compute_checksum_for_file backing
        if current = "" then
          ({ st with verified_bad_fds := fd :: st.verified_bad_fds }, false)
        else if current = stored then
          ({ st with verified_ok_fds := fd :: st.verified_ok_fds }, true)
        else
          ({ st with verified_bad_fds := fd :: st.verified_bad_fds }, false)

/-! ## FUSE operations of part_002

Each operation takes the outcomes of the host-filesystem calls it makes as
explicit `Except Nat _` arguments (`.error e` models `-1` with `errno = e`)
and returns `(successor state, result)`. -/

/-- `fs_open`. `backing` is the content `compute_hash_uint64` would read. -/
def fs_open (st : FSState) (path : String) (fl : Flags)
    (hostOpen : Except Nat Nat) (backing : Option (List Nat)) :
    FSState × Except Err Nat :=
  if is_append_only_path st.append_only_dirs path ∧ fl.trunc then
    (st, .error .permDenied)
  else
    match hostOpen with
    | .error e => (st, .error (.hostError e))
    | .ok fd =>
      let st1 : FSState :=
        { st with verified_ok_fds := st.verified_ok_fds.filter (· ≠ fd),
                  verified_bad_fds := st.verified_bad_fds.filter (· ≠ fd) }
      if fl.writer then
        if fl.trunc then
          ({ st1 with checksum_map := aupsert st1.checksum_map fd FNV_OFFSET_BASIS,
                      open_path_to_fd := (path, fd) :: st1.open_path_to_fd },
           .ok fd)
        else
          let disk_hash_val := compute_hash_uint64 backing
          match alookup st1.checksums path with
          | some db_hash =>
            if db_hash ≠ "" ∧ db_hash ≠ toHex disk_hash_val then
              (st1, .error .ioError)
            else
              ({ st1 with checksum_map := aupsert st1.checksum_map fd disk_hash_val,
                          open_path_to_fd := (path, fd) :: st1.open_path_to_fd },
               .ok fd)
          | none =>
            ({ st1 with checksum_map := aupsert st1.checksum_map fd disk_hash_val,
                        open_path_to_fd := (path, fd) :: st1.open_path_to_fd },
             .ok fd)
      else
        ({ st1 with open_path_to_fd := (path, fd) :: st1.open_path_to_fd }, .ok fd)

/-- `fs_read`. Non-writer fds go through `verify_fd_checksum` first; the
`pread` outcome is the oracle `preadRes`. -/
def fs_read (st : FSState) (path : String) (fd : Nat)
    (backing : Option (List Nat)) (preadRes : Except Nat (List Nat)) :
    FSState × Except Err (List Nat) :=
  if (alookup st.checksum_map fd).isSome then
    match preadRes with
    | .error e => (st, .error (.hostError e))
    | .ok bs => (st, .ok bs)
  else
    let v := verify_fd_checksum st path fd backing
    if v.2 then
      match preadRes with
      | .error e => (v.1, .error (.hostError e))
      | .ok bs => (v.1, .ok bs)
    else (v.1, .error .ioError)

/-- `fs_write`: fold the buffer into the tracked accumulator (if any), then
attempt the backing `pwrite` — note the fold happens first, with no rollback
on a failed write. -/
def fs_write (st : FSState) (fd : Nat) (buf : List Nat)
    (pwriteRes : Except Nat Nat) : FSState × Except Err Nat :=
  let st1 : FSState :=
    match alookup st.checksum_map fd with
    | some h => { st with checksum_map := aupsert st.checksum_map fd (update_fnv1a h buf) }
    | none => st
  match pwriteRes with
  | .error e => (st1, .error (.hostError e))
  | .ok n => (st1, .ok n)

/-- `fs_release`: drop the multimap entries for `(path, fd)`, close, flush the
tracked accumulator to the `checksums` table, clear the verification caches. -/
def fs_release (st : FSState) (path : String) (fd : Nat)
    (closeRes : Except Nat Unit) : FSState × Except Err Unit :=
  let st1 : FSState :=
    { st with open_path_to_fd :=
        st.open_path_to_fd.filter (fun e => ¬ (e.1 = path ∧ e.2 = fd)) }
  let res : Except Err Unit :=
    match closeRes with
    | .error e => .error (.hostError e)
    | .ok _ => .ok ()
  let st2 : FSState :=
    match alookup st1.checksum_map fd with
    | some h =>
      { st1 with checksum_map := aerase st1.checksum_map fd,
                 checksums := aupsert st1.checksums path (toHex h) }
    | none => st1
  ({ st2 with verified_ok_fds := st2.verified_ok_fds.filter (· ≠ fd),
              verified_bad_fds := st2.verified_bad_fds.filter (· ≠ fd) },
   res)

/-- `fs_create`: open with `O_CREAT`; writers start a fresh accumulator at the
offset basis.  Note: unlike `fs_open`, no `open_path_to_fd` entry is made. -/
def fs_create (st : FSState) (path : String) (fl : Flags)
    (hostOpen : Except Nat Nat) : FSState × Except Err Nat :=
  match hostOpen with
  | .error e => (st, .error (.hostError e))
  | .ok fd =>
    if fl.writer then
      ({ st with checksum_map := aupsert st.checksum_map fd FNV_OFFSET_BASIS }, .ok fd)
    else (st, .ok fd)

/-- `fs_unlink`: WORM check, host unlink, then delete the `metadata` and
`checksums` rows of the path. -/
def fs_unlink (st : FSState) (path : String) (hostUnlink : Except Nat Unit) :
    FSState × Except Err Unit :=
  if is_append_only_path st.append_only_dirs path then (st, .error .permDenied)
  else
    match hostUnlink with
    | .error e => (st, .error (.hostError e))
    | .ok _ =>
      ({ st with metadata := st.metadata.filter (fun r => r.1.1 ≠ path),
                 checksums := aerase st.checksums path },
       .ok ())

/-- `fs_truncate`: WORM check, host truncate, recompute and store the new
whole-file digest, then reset the accumulator of every fd registered for the
path in `open_path_to_fd` that is tracked in `checksum_map`. -/
def fs_truncate (st : FSState) (path : String) (size : Nat)
    (hostTrunc : Except Nat Unit) (backing : Option (List Nat)) :
    FSState × Except Err Unit :=
  if is_append_only_path st.append_only_dirs path then (st, .error .permDenied)
  else
    match hostTrunc with
    | .error e => (st, .error (.hostError e))
    | .ok _ =>
      let new_hash := compute_hash_uint64 backing
      let cs := aupsert st.checksums path (toHex new_hash)
      let fds := (st.open_path_to_fd.filter (fun e => e.1 = path)).map (fun e => e.2)
      let cm := fds.foldl
        (fun m fd => if (alookup m fd).isSome then aupsert m fd new_hash else m)
        st.checksum_map
      ({ st with checksums := cs, checksum_map := cm }, .ok ())

/-- Relabel of the `checksums` row in `fs_rename`:
`UPDATE checksums SET path = ? WHERE path = ?;`.  `path` is the table's
primary key, so when a row for the destination already exists the statement
aborts with a uniqueness violation (whose return code the C++ code ignores)
and the table is left unchanged. -/
def rename_checksums (cs : List (String × String)) (src dst : String) :
    List (String × String) :=
  match alookup cs src with
  | none => cs
  | some d =>
    if src = dst then cs
    else if (alookup cs dst).isSome then cs
    else aupsert (aerase cs src) dst d

/-- True iff some xattr key is stored both for `src` and for `dst`: the
condition under which the one-statement `UPDATE metadata SET path = ?` hits a
`(path, key)` primary-key collision. -/
def metadata_rename_conflict (md : List ((String × String) × String))
    (src dst : String) : Bool :=
  md.any (fun r => r.1.1 = src ∧ md.any (fun r2 => r2.1.1 = dst ∧ r2.1.2 = r.1.2))

/-- Relabel of the `metadata` rows in `fs_rename`:
`UPDATE metadata SET path = ? WHERE path = ?;`.  The table's primary key is
`(path, key)`; if any key stored for `src` is also stored for `dst` (and the
two paths differ), the statement aborts as a whole and no row changes. -/
def rename_metadata (md : List ((String × String) × String)) (src dst : String) :
    List ((String × String) × String) :=
  if src ≠ dst ∧ metadata_rename_conflict md src dst then
    md
  else
    md.map (fun r => if r.1.1 = src then ((dst, r.1.2), r.2) else r)

/-- `fs_rename`: WORM check on both ends, host rename, then relabel the two
sidecar tables. -/
def fs_rename (st : FSState) (src dst : String) (hostRen : Except Nat Unit) :
    FSState × Except Err Unit :=
  if is_append_only_path st.append_only_dirs src ∨
      is_append_only_path st.append_only_dirs dst then
    (st, .error .permDenied)
  else
    match hostRen with
    | .error e => (st, .error (.hostError e))
    | .ok _ =>
      ({ st with metadata := rename_metadata st.metadata src dst,
                 checksums := rename_checksums st.checksums src dst },
       .ok ())

/-- `fs_getxattr` restricted to the row lookup: value stored for
`(path, name)`, or not-found (`-ENODATA`). -/
def get_xattr (st : FSState) (path name : String) : Option String :=
  alookup st.metadata (path, name)

/-- The stored whole-file digest of a path (`SELECT checksum FROM checksums`). -/
def get_digest (st : FSState) (path : String) : Option String :=
  alookup st.checksums path

/-! ## Block-indexed variant (src/blockfs.cpp) -/

namespace BlockFS

/-- `static const size_t BLOCK_SIZE = 4096;` -/
def BLOCK_SIZE : Nat := 4096

/-- `get_block_index(offset) = offset / BLOCK_SIZE` (sizes/offsets are
non-negative here, so `off_t` division is `Nat` division). -/
def get_block_index (offset : Nat) : Nat := offset / BLOCK_SIZE

/-- The `block_hashes` table: rows keyed by `(path, block_index)`. -/
abbrev BlockTable : Type := List ((String × Nat) × String)

/-- `SELECT checksum FROM block_hashes WHERE path=? AND block_index=?`,
with the row-absent case mapped to `""` as in `get_db_block_hash`. -/
def get_db_block_hash (tbl : BlockTable) (path : String) (block_idx : Nat) :
    String :=
  match alookup tbl (path, block_idx) with
  | none => ""
  | some s => s

/-- `DELETE FROM block_hashes WHERE path=?;` -/
def delete_file_hashes (tbl : BlockTable) (path : String) : BlockTable :=
  tbl.filter (fun r => r.1.1 ≠ path)

/-- `DELETE FROM block_hashes WHERE path=? AND block_index > ?;`
`start_idx` is an `int64_t`: `fs_truncate` passes `last_block_idx - 1`, which
is `-1` when the new size is `0`. -/
def delete_hashes_after_index (tbl : BlockTable) (path : String)
    (start_idx : Int) : BlockTable :=
  tbl.filter (fun r => ¬ (r.1.1 = path ∧ start_idx < (r.1.2 : Int)))

/-- `fs_truncate` of blockfs.cpp: host truncate, then delete block rows past
the new end.  At an exact block boundary rows with index `> last - 1`
(that is, `≥ last`) go, and at size `0` additionally all rows of the path;
mid-block, rows with index `> last` go and — per the explicit comment in the
source — the trimmed tail block is NOT re-hashed. -/
def fs_truncate (tbl : BlockTable) (path : String) (size : Nat)
    (hostTrunc : Except Nat Unit) : BlockTable × Except Err Unit :=
  match hostTrunc with
  | .error e => (tbl, .error (.hostError e))
  | .ok _ =>
    let last_block_idx := get_block_index size
    if size % BLOCK_SIZE = 0 then
      let tbl1 := delete_hashes_after_index tbl path ((last_block_idx : Int) - 1)
      let tbl2 := if size = 0 then delete_file_hashes tbl1 path else tbl1
      (tbl2, .ok ())
    else
      (delete_hashes_after_index tbl path (last_block_idx : Int), .ok ())

end BlockFS

/-! ## Execution drivers and structural lemmas -/

/-- A client write sequence through one handle, every backing `pwrite`
succeeding. -/
def writeSeq (st : FSState) (fd : Nat) (bufs : List (List Nat)) : FSState :=
  bufs.foldl (fun s b => (fs_write s fd b (.ok b.length)).1) st

/-- The C6 failing execution: `fs_create` a writer handle (fd 3) on `/f`,
write the bytes `"ab"`, then truncate `/f` to size 1 (post-truncate backing
content `[97]`). -/
def c6_state : FSState :=
  (fs_truncate
    ((fs_write
        ((fs_create (FSState.mk [] [] [] [] [] [] []) "/f" (Flags.mk true false)
          (.ok 3)).1)
        3 [97, 98] (.ok 2)).1)
    "/f" 1 (.ok ()) (some [97])).1

/-- C8 spec-side predicate, in the claim's words: `p` is append-only iff it
equals some configured prefix, or begins with a configured prefix immediately
followed by `'/'`, where the configured prefixes are the nonempty CSV entries
of `append_only_dirs` with a leading `'/'` prepended when absent. -/
def worm_spec (csv p : String) : Prop :=
  ∃ item ∈ csv.splitOn ",", item ≠ "" ∧
    ((p = if item.toList.head? = some '/' then item else "/" ++ item) ∨
      ∃ rest : List Char,
        p.toList =
          (if item.toList.head? = some '/' then item else "/" ++ item).toList ++
            '/' :: rest)

/-- The C9 claim as stated: for every successful block-mode truncate, rows
strictly beyond the new last block index `⌊new_size/4096⌋` are deleted, and a
mid-block shrink re-hashes the newly-trimmed tail block, storing the digest
of the trimmed content (`content` is the post-truncate backing content). -/
def C9_claim_statement : Prop :=
  ∀ (tbl : BlockFS.BlockTable) (path : String) (size : Nat) (content : List Nat),
    (∀ i : Nat, BlockFS.get_block_index size < i →
      alookup (BlockFS.fs_truncate tbl path size (.ok ())).1 (path, i) = none) ∧
    (size % BlockFS.BLOCK_SIZE ≠ 0 →
      alookup (BlockFS.fs_truncate tbl path size (.ok ())).1
          (path, BlockFS.get_block_index size) =
        some (toHex (update_fnv1a FNV_OFFSET_BASIS
          ((content.take size).drop
            (BlockFS.get_block_index size * BlockFS.BLOCK_SIZE)))))

/-! ## Lemmas -/

theorem alookup_filter_of_holds {α β : Type} [DecidableEq α]
    (m : List (α × β)) (a : α) (q : α × β → Bool)
    (hq : ∀ v : β, q (a, v) = true) :
    alookup (m.filter q) a = alookup m a := by
  induction m with
  | nil => rfl
  | cons e rest ih =>
    obtain ⟨k, v⟩ := e
    rw [List.filter_cons]
    by_cases hk : k = a
    · subst hk
      rw [if_pos (hq v)]
      simp [alookup]
    · rcases hqe : q (k, v) with _ | _
      · rw [if_neg Bool.false_ne_true, ih, alookup, if_neg hk]
      · rw [if_pos rfl, alookup, if_neg hk, ih, alookup, if_neg hk]

@[simp] theorem alookup_aupsert_self {α β : Type} [DecidableEq α]
    (m : List (α × β)) (k : α) (v : β) :
    alookup (aupsert m k v) k = some v := by
  simp [aupsert, alookup]

theorem alookup_aupsert_ne {α β : Type} [DecidableEq α]
    (m : List (α × β)) (k a : α) (v : β) (h : k ≠ a) :
    alookup (aupsert m k v) a = alookup m a := by
  rw [aupsert, alookup, if_neg h]
  exact alookup_filter_of_holds m a _ (fun w => by simp [Ne.symm h])

@[simp] theorem alookup_aerase_self {α β : Type} [DecidableEq α]
    (m : List (α × β)) (k : α) :
    alookup (aerase m k) k = none := by
  induction m with
  | nil => rfl
  | cons e rest ih =>
    obtain ⟨a, v⟩ := e
    rw [aerase, List.filter_cons]
    by_cases hk : a = k
    · rw [if_neg (by simp [hk])]
      exact ih
    · rw [if_pos (by simp [hk]), alookup, if_neg hk]
      exact ih

theorem alookup_aerase_ne {α β : Type} [DecidableEq α]
    (m : List (α × β)) (k a : α) (h : k ≠ a) :
    alookup (aerase m k) a = alookup m a :=
  alookup_filter_of_holds m a _ (fun w => by simp [Ne.symm h])

@[simp] theorem update_fnv1a_nil (h : Nat) : update_fnv1a h [] = h := rfl

theorem update_fnv1a_append (h : Nat) (a b : List Nat) :
    update_fnv1a h (a ++ b) = update_fnv1a (update_fnv1a h a) b :=
  List.foldl_append ..

theorem fs_write_state (st : FSState) (fd : Nat) (buf : List Nat)
    (r : Except Nat Nat) :
    (fs_write st fd buf r).1 =
      match alookup st.checksum_map fd with
      | some h =>
        { st with checksum_map := aupsert st.checksum_map fd (update_fnv1a h buf) }
      | none => st := by
  unfold fs_write
  cases alookup st.checksum_map fd <;> cases r <;> rfl

theorem writeSeq_spec (bufs : List (List Nat)) (st : FSState) (fd : Nat) (h : Nat)
    (hh : alookup st.checksum_map fd = some h) :
    (writeSeq st fd bufs).checksums = st.checksums ∧
    alookup (writeSeq st fd bufs).checksum_map fd =
      some (update_fnv1a h bufs.flatten) := by
  induction bufs generalizing st h with
  | nil => simpa [writeSeq] using hh
  | cons b rest ih =>
    have hstep : (fs_write st fd b (.ok b.length)).1 =
        { st with checksum_map := aupsert st.checksum_map fd (update_fnv1a h b) } := by
      rw [fs_write_state, hh]
    have hW : writeSeq st fd (b :: rest) =
        writeSeq { st with checksum_map := aupsert st.checksum_map fd (update_fnv1a h b) }
          fd rest := by
      rw [writeSeq, List.foldl_cons, hstep]
      rfl
    rw [hW]
    obtain ⟨h1, h2⟩ :=
      ih ({ st with checksum_map := aupsert st.checksum_map fd (update_fnv1a h b) })
        (update_fnv1a h b) (by simp)
    refine ⟨h1.trans rfl, ?_⟩
    rw [h2, List.flatten_cons, update_fnv1a_append]

/-! ## Claims -/

/-- C1: in whole-file mode, a writer handle obtained by `fs_create` starts its
accumulator at the FNV offset basis, every `fs_write` folds its buffer into
the accumulator, and `fs_release` stores the final accumulator, so the digest
recorded in `checksums` for the path equals the FNV-1a-64 of the concatenation
of the written payloads in execution order. -/
theorem C1_fresh_file_digest (st0 : FSState) (p : String) (fd : Nat) (fl : Flags)
    (bufs : List (List Nat)) (closeRes : Except Nat Unit)
    (hw : fl.writer = true) :
    get_digest
        (fs_release (writeSeq (fs_create st0 p fl (.ok fd)).1 fd bufs) p fd
          closeRes).1 p =
      some (toHex (update_fnv1a FNV_OFFSET_BASIS bufs.flatten)) := by
  have hcr : (fs_create st0 p fl (.ok fd)).1 =
      { st0 with checksum_map := aupsert st0.checksum_map fd FNV_OFFSET_BASIS } := by
    simp [fs_create, hw]
  rw [hcr]
  obtain ⟨h1, h2⟩ :=
    writeSeq_spec bufs
      { st0 with checksum_map := aupsert st0.checksum_map fd FNV_OFFSET_BASIS }
      fd FNV_OFFSET_BASIS (by simp)
  unfold fs_release
  simp only [get_digest]
  rw [h2]
  simp [alookup_aupsert_self]

/-- C1 witness: two writes of `[1, 2]` then `[3]` to a fresh `/basic.txt`
leave the digest of `[1, 2, 3]` in the table. -/
theorem C1_fresh_file_digest_witness :
    (Flags.mk true false).writer = true ∧
    get_digest
        (fs_release
          (writeSeq (fs_create (FSState.mk [] [] [] [] [] [] []) "/basic.txt"
              (Flags.mk true false) (.ok 3)).1 3 [[1, 2], [3]])
          "/basic.txt" 3 (.ok ())).1 "/basic.txt" =
      some (toHex (update_fnv1a FNV_OFFSET_BASIS [1, 2, 3])) :=
  ⟨rfl, by
    have := C1_fresh_file_digest (FSState.mk [] [] [] [] [] [] []) "/basic.txt" 3
      (Flags.mk true false) [[1, 2], [3]] (.ok ()) rfl
    simpa using this⟩

/-- C3: for a path under a configured append-only prefix, `fs_unlink`,
`fs_truncate` (any size), `fs_open` with the truncate flag, rename-out and
rename-in all return permission-denied with the state unchanged; each result
is independent of every host-outcome oracle, reflecting that the code returns
before touching the backing store or the sidecar. -/
theorem C3_worm_denied (st : FSState) (p q : String) (size : Nat) (fl : Flags)
    (hp : is_append_only_path st.append_only_dirs p = true)
    (ht : fl.trunc = true) :
    (∀ hostU, fs_unlink st p hostU = (st, .error .permDenied)) ∧
    (∀ hostT backing, fs_truncate st p size hostT backing = (st, .error .permDenied)) ∧
    (∀ hostO backing, fs_open st p fl hostO backing = (st, .error .permDenied)) ∧
    (∀ hostR, fs_rename st p q hostR = (st, .error .permDenied)) ∧
    (∀ hostR, fs_rename st q p hostR = (st, .error .permDenied)) := by
  refine ⟨fun hostU => ?_, fun hostT backing => ?_, fun hostO backing => ?_,
    fun hostR => ?_, fun hostR => ?_⟩
  · simp [fs_unlink, hp]
  · simp [fs_truncate, hp]
  · simp [fs_open, hp, ht]
  · simp [fs_rename, hp]
  · simp [fs_rename, hp]

/-- C3 witness: with `append_only_dirs = ["/logs"]`, unlinking
`/logs/a.txt` is denied. -/
theorem C3_worm_denied_witness :
    is_append_only_path ["/logs"] "/logs/a.txt" = true ∧
    (Flags.mk true true).trunc = true ∧
    fs_unlink (FSState.mk [] [] [] ["/logs"] [] [] []) "/logs/a.txt" (.ok ()) =
      (FSState.mk [] [] [] ["/logs"] [] [] [], .error .permDenied) :=
  ⟨by decide, rfl,
    (C3_worm_denied (FSState.mk [] [] [] ["/logs"] [] [] []) "/logs/a.txt" "/out.txt"
      0 (Flags.mk true true) (by decide) rfl).1 (.ok ())⟩

/-- C7 counterexample: with the constants actually in the source
(offset basis `0x14650FB0739D0383`, prime `0x100000001B3`), the digest of the
12-byte sequence `"hello world\n"` is `40e9ba25b19a84e9`, not the
`779a65e7023cd2e7` the claim asserts (that value is the digest of the 11-byte
`"hello world"` under the standard FNV-1a-64 basis `0xCBF29CE484222325`). -/
theorem C7_hello_world_counterexample :
    toHex (update_fnv1a FNV_OFFSET_BASIS (strBytes "hello world\n")) =
      "40e9ba25b19a84e9" ∧
    toHex (update_fnv1a FNV_OFFSET_BASIS (strBytes "hello world\n")) ≠
      "779a65e7023cd2e7" := by
  constructor
  · decide
  · decide

/-- C7 amended: the digest function is FNV-1a-64 with offset basis
`0x14650FB0739D0383` and prime `0x100000001B3`, each byte folded by
`h ← (h XOR b) * prime mod 2^64`, serialized as lowercase hexadecimal; the
digest of the 12-byte `"hello world\n"` is `40e9ba25b19a84e9`. -/
theorem C7_fnv_constants_amended :
    FNV_OFFSET_BASIS = 0x14650FB0739D0383 ∧
    FNV_PRIME = 0x100000001B3 ∧
    (∀ h buf, update_fnv1a h buf =
      buf.foldl (fun acc b => ((acc ^^^ b) * 0x100000001B3) % 2 ^ 64) h) ∧
    (∀ n, toHex n = String.mk (Nat.toDigits 16 n)) ∧
    (strBytes "hello world\n").length = 12 ∧
    toHex (update_fnv1a FNV_OFFSET_BASIS (strBytes "hello world\n")) =
      "40e9ba25b19a84e9" := by
  refine ⟨by decide, by decide, fun h buf => rfl, fun n => rfl, by decide, by decide⟩

/-- C10: `fs_write` folds the whole buffer into the tracked accumulator
before the backing `pwrite`; when the `pwrite` fails the host error is
returned but the accumulator keeps the folded bytes, and a subsequent
`fs_release` stores a digest that includes the bytes the backing file never
received. -/
theorem C10_accumulator_no_rollback (st : FSState) (p : String) (fd : Nat)
    (buf : List Nat) (h e : Nat) (closeRes : Except Nat Unit)
    (hh : alookup st.checksum_map fd = some h) :
    (fs_write st fd buf (.error e)).2 = .error (.hostError e) ∧
    alookup (fs_write st fd buf (.error e)).1.checksum_map fd =
      some (update_fnv1a h buf) ∧
    get_digest (fs_release (fs_write st fd buf (.error e)).1 p fd closeRes).1 p =
      some (toHex (update_fnv1a h buf)) := by
  have hst : (fs_write st fd buf (.error e)).1 =
      { st with checksum_map := aupsert st.checksum_map fd (update_fnv1a h buf) } := by
    rw [fs_write_state, hh]
  refine ⟨by simp [fs_write, hh], ?_, ?_⟩
  · rw [hst]
    simp
  · rw [hst]
    unfold fs_release
    simp [get_digest, alookup_aupsert_self]

/-- C10 witness: a failed 1-byte write still lands in the stored digest. -/
theorem C10_accumulator_no_rollback_witness :
    alookup (FSState.mk [(3, FNV_OFFSET_BASIS)] [] [] [] [] [] []).checksum_map 3 =
      some FNV_OFFSET_BASIS ∧
    get_digest
        (fs_release
          (fs_write (FSState.mk [(3, FNV_OFFSET_BASIS)] [] [] [] [] [] []) 3 [7]
            (.error 5)).1 "/w.txt" 3 (.ok ())).1 "/w.txt" =
      some (toHex (update_fnv1a FNV_OFFSET_BASIS [7])) :=
  ⟨by decide,
    (C10_accumulator_no_rollback (FSState.mk [(3, FNV_OFFSET_BASIS)] [] [] [] [] [] [])
      "/w.txt" 3 [7] FNV_OFFSET_BASIS 5 (.ok ()) (by decide)).2.2⟩

/-- C4: on a write-capable, non-truncating `fs_open`, the engine hashes the
current backing content and compares it with the stored digest: a (nonempty)
stored digest that differs makes the open fail with an I/O error with no
handle registered and no sidecar change; a match, an empty stored digest, or
no stored row lets the open succeed as a writer whose accumulator is
pre-loaded with the current content's digest. -/
theorem C4_append_open_verification (st : FSState) (p : String) (fd : Nat)
    (backing : Option (List Nat)) :
    (∀ d, alookup st.checksums p = some d → d ≠ "" →
      d ≠ toHex (compute_hash_uint64 backing) →
      ((fs_open st p (Flags.mk true false) (.ok fd) backing).2 = .error .ioError ∧
        (fs_open st p (Flags.mk true false) (.ok fd) backing).1.checksum_map =
          st.checksum_map ∧
        (fs_open st p (Flags.mk true false) (.ok fd) backing).1.open_path_to_fd =
          st.open_path_to_fd ∧
        (fs_open st p (Flags.mk true false) (.ok fd) backing).1.checksums =
          st.checksums ∧
        (fs_open st p (Flags.mk true false) (.ok fd) backing).1.metadata =
          st.metadata)) ∧
    ((alookup st.checksums p = none ∨ alookup st.checksums p = some "" ∨
        alookup st.checksums p = some (toHex (compute_hash_uint64 backing))) →
      ((fs_open st p (Flags.mk true false) (.ok fd) backing).2 = .ok fd ∧
        alookup (fs_open st p (Flags.mk true false) (.ok fd) backing).1.checksum_map
            fd =
          some (compute_hash_uint64 backing))) := by
  constructor
  · intro d hd hne hmis
    simp [fs_open, hd, hne, hmis]
  · intro hcase
    rcases hcase with hd | hd | hd
    · simp [fs_open, hd]
    · simp [fs_open, hd]
    · simp [fs_open, hd]

/-- C4 witness: stored digest `"zz"` differs from the digest of content
`[0]`, so the strict append-open is refused. -/
theorem C4_append_open_verification_witness :
    alookup (FSState.mk [] [] [] [] [] [("/a", "zz")] []).checksums "/a" = some "zz" ∧
    (fs_open (FSState.mk [] [] [] [] [] [("/a", "zz")] []) "/a" (Flags.mk true false)
        (.ok 5) (some [0])).2 = .error .ioError :=
  ⟨by decide,
    ((C4_append_open_verification (FSState.mk [] [] [] [] [] [("/a", "zz")] []) "/a" 5
      (some [0])).1 "zz" (by decide) (by decide) (by decide)).1⟩

/-- Mismatch path of `verify_fd_checksum` for a handle with no cached ok
verdict: the verdict is `false` and the fd is cached verified-bad. -/
theorem verify_fd_checksum_mismatch (st : FSState) (p : String) (fd : Nat)
    (backing : Option (List Nat)) (d : String)
    (hok : fd ∉ st.verified_ok_fds)
    (hd : alookup st.checksums p = some d) (hne : d ≠ "")
    (hmis : compute_checksum_for_file backing ≠ d) :
    (verify_fd_checksum st p fd backing).2 = false ∧
    fd ∈ (verify_fd_checksum st p fd backing).1.verified_bad_fds := by
  by_cases hbad : fd ∈ st.verified_bad_fds
  · unfold verify_fd_checksum
    simp [hok, hbad]
  · by_cases hcur : compute_checksum_for_file backing = ""
    · unfold verify_fd_checksum
      simp [hok, hbad, hd, hne, hcur]
    · unfold verify_fd_checksum
      simp [hok, hbad, hd, hne, hcur, hmis]

/-- C2 counterexample: path `/t` has the stored digest `"aa"`, the backing
content `[0]` hashes to something else (an out-of-band modification), yet a
read on handle 7 — which verified ok before the modification — succeeds,
because the cached ok verdict suppresses re-verification.  This refutes the
claim's "the next read on a handle for p fails with an I/O error". -/
theorem C2_read_after_corruption_counterexample :
    alookup (FSState.mk [] [7] [] [] [("/t", 7)] [("/t", "aa")] []).checksums "/t" =
      some "aa" ∧
    compute_checksum_for_file (some [0]) ≠ "aa" ∧
    (fs_read (FSState.mk [] [7] [] [] [("/t", 7)] [("/t", "aa")] []) "/t" 7
        (some [0]) (.ok [0])).2 = .ok [0] := by
  refine ⟨by decide, by decide, by decide⟩

/-- C2 amended: after an out-of-band modification, the next read on a handle
for `p` that is not a tracked writer and has no cached ok verdict fails with
an I/O error and caches the handle verified-bad; a read on a verified-bad
(non-writer) handle fails with an I/O error with the whole state unchanged —
independent of the backing content, i.e. without recomputation; and neither
`fs_write` nor `fs_truncate` removes a verified-bad mark, so a handle never
goes bad → ok without an intervening `fs_release` (or re-open) of the fd. -/
theorem C2_read_verification_amended :
    (∀ (st : FSState) (p : String) (fd : Nat) (backing : Option (List Nat))
        (preadRes : Except Nat (List Nat)) (d : String),
      alookup st.checksum_map fd = none →
      fd ∉ st.verified_ok_fds →
      alookup st.checksums p = some d →
      d ≠ "" →
      compute_checksum_for_file backing ≠ d →
      ((fs_read st p fd backing preadRes).2 = .error .ioError ∧
        fd ∈ (fs_read st p fd backing preadRes).1.verified_bad_fds)) ∧
    (∀ (st : FSState) (p : String) (fd : Nat) (backing : Option (List Nat))
        (preadRes : Except Nat (List Nat)),
      alookup st.checksum_map fd = none →
      fd ∉ st.verified_ok_fds →
      fd ∈ st.verified_bad_fds →
      ((fs_read st p fd backing preadRes).2 = .error .ioError ∧
        (fs_read st p fd backing preadRes).1 = st)) ∧
    (∀ (st : FSState) (fd : Nat) (buf : List Nat) (r : Except Nat Nat),
      (fs_write st fd buf r).1.verified_bad_fds = st.verified_bad_fds) ∧
    (∀ (st : FSState) (p : String) (size : Nat) (hostT : Except Nat Unit)
        (backing : Option (List Nat)),
      (fs_truncate st p size hostT backing).1.verified_bad_fds =
        st.verified_bad_fds) := by
  refine ⟨?_, ?_, ?_, ?_⟩
  · intro st p fd backing preadRes d hcm hok hd hne hmis
    obtain ⟨hv2, hvbad⟩ := verify_fd_checksum_mismatch st p fd backing d hok hd hne hmis
    unfold fs_read
    simp [hcm, hv2, hvbad]
  · intro st p fd backing preadRes hcm hok hbad
    unfold fs_read
    unfold verify_fd_checksum
    simp [hcm, hok, hbad]
  · intro st fd buf r
    rw [fs_write_state]
    cases alookup st.checksum_map fd <;> rfl
  · intro st p size hostT backing
    unfold fs_truncate
    split
    · rfl
    · split <;> rfl

/-- C2 amended witness: fresh reader handle 9 on `/t` (stored digest `"aa"`,
current content `[0]`) gets an I/O error and is cached bad. -/
theorem C2_read_verification_amended_witness :
    alookup (FSState.mk [] [] [] [] [("/t", 9)] [("/t", "aa")] []).checksum_map 9 =
      none ∧
    (fs_read (FSState.mk [] [] [] [] [("/t", 9)] [("/t", "aa")] []) "/t" 9
        (some [0]) (.ok [0])).2 = .error .ioError :=
  ⟨by decide,
    (C2_read_verification_amended.1 (FSState.mk [] [] [] [] [("/t", 9)] [("/t", "aa")] [])
      "/t" 9 (some [0]) (.ok [0]) "aa" (by decide) (by decide) (by decide)
      (by decide) (by decide)).1⟩

theorem alookup_rename_map_src_none
    (md : List ((String × String) × String)) (src dst k : String) (hne : src ≠ dst) :
    alookup (md.map (fun r => if r.1.1 = src then ((dst, r.1.2), r.2) else r))
      (src, k) = none := by
  induction md with
  | nil => rfl
  | cons r rest ih =>
    obtain ⟨⟨rp, rk⟩, rv⟩ := r
    by_cases hr : rp = src
    · simp only [List.map_cons]
      rw [if_pos (show ((rp, rk), rv).1.1 = src from hr)]
      rw [alookup, if_neg (fun hc => hne (congrArg Prod.fst hc).symm)]
      exact ih
    · simp only [List.map_cons]
      rw [if_neg (show ¬ ((rp, rk), rv).1.1 = src from hr)]
      rw [alookup, if_neg (fun hc => hr (congrArg Prod.fst hc))]
      exact ih

theorem rename_checksums_no_conflict (cs : List (String × String)) (src dst : String)
    (hne : src ≠ dst) (hdst : alookup cs dst = none) :
    alookup (rename_checksums cs src dst) src = none ∧
    alookup (rename_checksums cs src dst) dst = alookup cs src := by
  cases hsrc : alookup cs src with
  | none =>
    have hid : rename_checksums cs src dst = cs := by
      unfold rename_checksums
      simp only [hsrc]
    rw [hid, hsrc, hdst]
    exact ⟨rfl, rfl⟩
  | some d =>
    have hred : rename_checksums cs src dst = aupsert (aerase cs src) dst d := by
      unfold rename_checksums
      simp [hsrc, hne, hdst]
    rw [hred]
    constructor
    · rw [alookup_aupsert_ne _ _ _ _ (Ne.symm hne)]
      exact alookup_aerase_self cs src
    · simp [alookup_aupsert_self]

/-- C5 counterexample: with digests stored for both `/a` and `/b`, a
successful `fs_rename /a /b` leaves the sidecar unchanged — the one-statement
`UPDATE checksums SET path` hits the `path` primary key and aborts, and the
code ignores the failure.  Afterwards `get_digest /a` is still present
(the claim demands not-found) and `get_digest /b` is the stale digest of
`/b`, not the pre-rename digest of `/a`. -/
theorem C5_rename_conflict_counterexample :
    (fs_rename (FSState.mk [] [] [] [] [] [("/a", "d1"), ("/b", "d2")] [])
        "/a" "/b" (.ok ())).2 = .ok () ∧
    get_digest (fs_rename (FSState.mk [] [] [] [] [] [("/a", "d1"), ("/b", "d2")] [])
        "/a" "/b" (.ok ())).1 "/a" = some "d1" ∧
    get_digest (fs_rename (FSState.mk [] [] [] [] [] [("/a", "d1"), ("/b", "d2")] [])
        "/a" "/b" (.ok ())).1 "/b" = some "d2" ∧
    get_digest (FSState.mk [] [] [] [] [] [("/a", "d1"), ("/b", "d2")] []) "/a" =
      some "d1" := by
  refine ⟨by decide, by decide, by decide, by decide⟩

/-- C5 amended: for non-WORM paths, a failed backing rename propagates the
host error and leaves the sidecar untouched; a successful backing rename
relabels the `metadata` and `checksums` rows of `src` to `dst` — provided the
destination has no conflicting sidecar rows (no stored digest for `dst` and
no xattr key stored for both paths, otherwise the aborted `UPDATE` leaves the
affected table unchanged) — so that `get_digest src` and `get_xattr src *`
become not-found and `get_digest dst` returns the pre-rename digest of `src`. -/
theorem C5_rename_relabel_amended (st : FSState) (src dst : String)
    (h1 : is_append_only_path st.append_only_dirs src = false)
    (h2 : is_append_only_path st.append_only_dirs dst = false) :
    (∀ e, fs_rename st src dst (.error e) = (st, .error (.hostError e))) ∧
    (src ≠ dst →
      alookup st.checksums dst = none →
      metadata_rename_conflict st.metadata src dst = false →
      ((fs_rename st src dst (.ok ())).2 = .ok () ∧
        get_digest (fs_rename st src dst (.ok ())).1 src = none ∧
        get_digest (fs_rename st src dst (.ok ())).1 dst = get_digest st src ∧
        (∀ k, get_xattr (fs_rename st src dst (.ok ())).1 src k = none))) := by
  constructor
  · intro e
    simp [fs_rename, h1, h2]
  · intro hne hdst hconf
    have hstate : (fs_rename st src dst (.ok ())).1 =
        { st with metadata := rename_metadata st.metadata src dst,
                  checksums := rename_checksums st.checksums src dst } := by
      simp [fs_rename, h1, h2]
    obtain ⟨hc1, hc2⟩ := rename_checksums_no_conflict st.checksums src dst hne hdst
    refine ⟨by simp [fs_rename, h1, h2], ?_, ?_, ?_⟩
    · rw [hstate]
      simpa [get_digest] using hc1
    · rw [hstate]
      simpa [get_digest] using hc2
    · intro k
      rw [hstate]
      simp only [get_xattr]
      show alookup (rename_metadata st.metadata src dst) (src, k) = none
      unfold rename_metadata
      rw [if_neg (by simp [hconf])]
      exact alookup_rename_map_src_none st.metadata src dst k hne

/-- C5 amended witness: renaming `/a` (digest `d1`, xattr `user.n`) to a
fresh `/c` relabels both rows. -/
theorem C5_rename_relabel_amended_witness :
    is_append_only_path ([] : List String) "/a" = false ∧
    get_digest
        (fs_rename (FSState.mk [] [] [] [] [] [("/a", "d1")] [(("/a", "user.n"), "v")])
          "/a" "/c" (.ok ())).1 "/c" =
      get_digest (FSState.mk [] [] [] [] [] [("/a", "d1")] [(("/a", "user.n"), "v")])
        "/a" :=
  ⟨by decide,
    ((C5_rename_relabel_amended
        (FSState.mk [] [] [] [] [] [("/a", "d1")] [(("/a", "user.n"), "v")])
        "/a" "/c" (by decide) (by decide)).2 (by decide) (by decide)
      (by decide)).2.2.1⟩


/-- C6 (code-bug evaluation): after create + write `"ab"` + truncate-to-1,
the open writer's accumulator still holds FNV(`"ab"`) while the freshly
stored digest is FNV(`"a"`) — the accumulator was NOT reset, because
`fs_create` (unlike `fs_open`) never registers its handle in
`open_path_to_fd`, so `fs_truncate`'s reset loop cannot find it.  This
contradicts the claim (and the source's own "Update any OPEN file
descriptors" intent): the next release will store a digest for content the
file no longer has. -/
theorem C6_truncate_create_writer_eval :
    alookup c6_state.checksum_map 3 = some (update_fnv1a FNV_OFFSET_BASIS [97, 98]) ∧
    get_digest c6_state "/f" = some (toHex (update_fnv1a FNV_OFFSET_BASIS [97])) ∧
    update_fnv1a FNV_OFFSET_BASIS [97, 98] ≠ update_fnv1a FNV_OFFSET_BASIS [97] ∧
    c6_state.open_path_to_fd = [] := by
  refine ⟨by decide, by decide, by decide, by decide⟩

theorem take_get_slash_iff (dl pl : List Char) :
    (dl.length < pl.length ∧ pl.take dl.length = dl ∧ pl[dl.length]? = some '/') ↔
    ∃ rest : List Char, pl = dl ++ '/' :: rest := by
  constructor
  · rintro ⟨hlen, htake, hget⟩
    refine ⟨pl.drop (dl.length + 1), ?_⟩
    have hdrop : pl.drop dl.length = pl[dl.length] :: pl.drop (dl.length + 1) :=
      List.drop_eq_getElem_cons hlen
    have hgetv : pl[dl.length] = '/' := by
      rw [List.getElem?_eq_getElem hlen] at hget
      exact Option.some.inj hget
    calc pl = pl.take dl.length ++ pl.drop dl.length :=
          (List.take_append_drop _ _).symm
      _ = dl ++ '/' :: pl.drop (dl.length + 1) := by rw [htake, hdrop, hgetv]
  · rintro ⟨rest, rfl⟩
    refine ⟨by simp, ?_, ?_⟩
    · exact List.take_left dl ('/' :: rest)
    · rw [List.getElem?_append_right (le_refl dl.length)]
      simp

theorem is_append_only_path_iff (dirs : List String) (p : String) :
    is_append_only_path dirs p = true ↔
      ∃ d ∈ dirs, p = d ∨ ∃ rest : List Char, p.toList = d.toList ++ '/' :: rest := by
  unfold is_append_only_path
  by_cases hE : dirs.isEmpty
  · rw [if_pos hE]
    rw [List.isEmpty_iff] at hE
    subst hE
    simp
  · rw [if_neg hE, List.any_eq_true]
    constructor
    · rintro ⟨d, hd, hdec⟩
      rw [decide_eq_true_eq] at hdec
      refine ⟨d, hd, ?_⟩
      rcases hdec with h | h
      · exact Or.inl h
      · exact Or.inr ((take_get_slash_iff d.toList p.toList).mp h)
    · rintro ⟨d, hd, hcase⟩
      refine ⟨d, hd, ?_⟩
      rw [decide_eq_true_eq]
      rcases hcase with h | h
      · exact Or.inl h
      · exact Or.inr ((take_get_slash_iff d.toList p.toList).mpr h)

theorem mem_add_append_only_dirs_iff (csv d : String) :
    d ∈ add_append_only_dirs_from_csv csv ↔
      ∃ item ∈ csv.splitOn ",", item ≠ "" ∧
        d = if item.toList.head? = some '/' then item else "/" ++ item := by
  unfold add_append_only_dirs_from_csv
  simp only [List.mem_map, List.mem_filter]
  constructor
  · rintro ⟨item, ⟨hmem, hne⟩, rfl⟩
    refine ⟨item, hmem, ?_, rfl⟩
    simpa [String.isEmpty_iff] using hne
  · rintro ⟨item, hmem, hne, rfl⟩
    exact ⟨item, ⟨hmem, by simpa [String.isEmpty_iff] using hne⟩, rfl⟩


/-- C8: the WORM predicate `is_append_only_path`, over the prefix set parsed
by `add_append_only_dirs_from_csv`, holds exactly as the claim describes. -/
theorem C8_worm_predicate (csv p : String) :
    is_append_only_path (add_append_only_dirs_from_csv csv) p = true ↔
      worm_spec csv p := by
  rw [is_append_only_path_iff]
  constructor
  · rintro ⟨d, hd, hcase⟩
    obtain ⟨item, hitem, hne, rfl⟩ := (mem_add_append_only_dirs_iff csv d).mp hd
    exact ⟨item, hitem, hne, hcase⟩
  · rintro ⟨item, hitem, hne, hcase⟩
    exact ⟨_, (mem_add_append_only_dirs_iff csv _).mpr ⟨item, hitem, hne, rfl⟩, hcase⟩


set_option maxRecDepth 100000 in
/-- C9 counterexample: truncating `/f` (blocks 0 and 1 hashed, stored tail
digest `"bb"`) to 4100 bytes lands mid-block 1; the code deletes nothing
(no index exceeds 1) and — as its own comment admits — skips the re-hash, so
the row for block 1 still holds `"bb"` and not the digest of the trimmed
4-byte tail of the 4100-byte backing content. -/
theorem C9_midblock_rehash_counterexample : ¬ C9_claim_statement := by
  intro h
  have h2 := (h [(("/f", 0), "aa"), (("/f", 1), "bb")] "/f" 4100
      (List.replicate 4100 0)).2 (by decide)
  have h3 : alookup
      (BlockFS.fs_truncate [(("/f", 0), "aa"), (("/f", 1), "bb")] "/f" 4100
        (.ok ())).1
      ("/f", BlockFS.get_block_index 4100) = some "bb" := by decide
  rw [h3] at h2
  have h4 : toHex (update_fnv1a FNV_OFFSET_BASIS
      ((((List.replicate 4100 0).take 4100)).drop
        (BlockFS.get_block_index 4100 * BlockFS.BLOCK_SIZE))) = "315446a086a23133" := by
    decide
  rw [h4] at h2
  exact absurd (Option.some.inj h2) (by decide)

/-- C9 amended: a successful block-mode truncate to `new_size` deletes
exactly the rows of the path with block index `≥ ⌈new_size/4096⌉` (so at an
exact block boundary the row at index `new_size/4096` is deleted as well),
keeps every other row — including, for a mid-block shrink, the trimmed tail
block's row, which retains its stale pre-truncate digest because the code
performs no re-hash. -/
theorem C9_truncate_amended (tbl : BlockFS.BlockTable) (path : String) (size : Nat) :
    (BlockFS.fs_truncate tbl path size (.ok ())).1 =
      tbl.filter (fun r =>
        ¬ (r.1.1 = path ∧
            (size + BlockFS.BLOCK_SIZE - 1) / BlockFS.BLOCK_SIZE ≤ r.1.2)) := by
  simp only [BlockFS.fs_truncate]
  by_cases hmod : size % BlockFS.BLOCK_SIZE = 0
  · rw [if_pos hmod]
    by_cases hz : size = 0
    · subst hz
      rw [if_pos rfl]
      unfold BlockFS.delete_file_hashes BlockFS.delete_hashes_after_index
      rw [List.filter_filter]
      refine List.filter_congr ?_
      intro r _
      by_cases hp : r.1.1 = path
      · simp [hp, BlockFS.get_block_index, BlockFS.BLOCK_SIZE]
      · simp [hp]
    · rw [if_neg hz]
      unfold BlockFS.delete_hashes_after_index
      refine List.filter_congr ?_
      intro r _
      by_cases hp : r.1.1 = path
      · have hmod4 : size % 4096 = 0 := hmod
        simp only [hp, true_and, decide_eq_decide, not_iff_not,
          BlockFS.get_block_index, BlockFS.BLOCK_SIZE]
        omega
      · simp [hp]
  · rw [if_neg hmod]
    unfold BlockFS.delete_hashes_after_index
    refine List.filter_congr ?_
    intro r _
    by_cases hp : r.1.1 = path
    · have hmod4 : size % 4096 ≠ 0 := hmod
      simp only [hp, true_and, decide_eq_decide, not_iff_not,
        BlockFS.get_block_index, BlockFS.BLOCK_SIZE]
      omega
    · simp [hp]

end AugmentFS
